import Mathlib

/-!
Verification of the tuits/users CRUD layer (TuitController, TuitSchema
declarations, UserDao) against its specification.

The embedding models:
* MongoDB-style documents as association lists of string paths to values
  (nested schema paths such as the stats counters use their dotted path,
  exactly the path strings mongoose itself derives from the schema);
* the two mongoose schema declarations for the tuits collection
  (src/unnamed/part_001 and src/mongoose/TuitSchema.ts);
* the mongoose driver operations the repository invokes: document creation
  (strict-mode stripping, default application, required validation),
  findById/findOne, deleteOne, and updateOne with a single $set stage;
* Express route registration and path-parameter binding, as used by
  TuitController (src/unnamed/part_000).
-/

/-- A JSON-ish value stored in a document field.  ObjectIds are modelled as
opaque strings, dates as abstract instants (naturals). -/
inductive Value where
  | str : String → Value
  | num : Int → Value
  | date : Nat → Value
  | oid : String → Value
deriving DecidableEq, Repr

/-- A document: an ordered association list from field paths to values.
`getField` reads the first binding of a path, matching JS object access. -/
abbrev Doc := List (String × Value)

/-- Read a field of a document (first binding wins). -/
def getField (doc : Doc) (k : String) : Option Value :=
  (doc.find? (fun kv => kv.1 == k)).map (fun kv => kv.2)

/-- Set a field of a document, replacing any existing binding of the path.
Models JS object update / spread, where keys are unique. -/
def setField (doc : Doc) (k : String) (v : Value) : Doc :=
  (k, v) :: doc.filter (fun kv => kv.1 != k)

/-- The declared type of a schema path. -/
inductive FieldType where
  | string | objectId | date | number
deriving DecidableEq, Repr

/-- A default annotation on a schema path: either a constant number
(the stats counters) or `Date.now` (evaluated at creation time). -/
inductive FieldDefault where
  | constNum : Int → FieldDefault
  | dateNow : FieldDefault
deriving DecidableEq, Repr

/-- One path declaration of a mongoose schema. -/
structure SchemaField where
  path : String
  type : FieldType
  required : Bool
  dflt : Option FieldDefault
deriving DecidableEq, Repr

/-- A mongoose schema: its list of declared paths. -/
abbrev MongooseSchema := List SchemaField

/-- The tuits schema declared in src/unnamed/part_001: text body, author
reference, timestamp defaulting to Date.now, four optional media strings,
and the six embedded stats counters each defaulting to 0. -/
def TuitSchemaFull : MongooseSchema := [
  ⟨"tuit", .string, true, none⟩,
  ⟨"postedBy", .objectId, false, none⟩,
  ⟨"postedOn", .date, false, some .dateNow⟩,
  ⟨"image", .string, false, none⟩,
  ⟨"youtube", .string, false, none⟩,
  ⟨"avatarLogo", .string, false, none⟩,
  ⟨"imageOverlay", .string, false, none⟩,
  ⟨"stats.replies", .number, false, some (.constNum 0)⟩,
  ⟨"stats.retuits", .number, false, some (.constNum 0)⟩,
  ⟨"stats.likes", .number, false, some (.constNum 0)⟩,
  ⟨"stats.dislikes", .number, false, some (.constNum 0)⟩,
  ⟨"stats.currentUserLike", .number, false, some (.constNum 0)⟩,
  ⟨"stats.currentUserDislike", .number, false, some (.constNum 0)⟩]

/-- The tuits schema declared in src/mongoose/TuitSchema.ts: only the text
body, the author reference and the timestamp. -/
def TuitSchemaMin : MongooseSchema := [
  ⟨"tuit", .string, true, none⟩,
  ⟨"postedBy", .objectId, false, none⟩,
  ⟨"postedOn", .date, false, some .dateNow⟩]

/-- The six embedded stats counter paths. -/
def statsPaths : List String :=
  ["stats.replies", "stats.retuits", "stats.likes", "stats.dislikes",
   "stats.currentUserLike", "stats.currentUserDislike"]

/-- Evaluate a default annotation at a creation instant. -/
def defaultValue : FieldDefault → Nat → Value
  | .constNum n, _ => .num n
  | .dateNow, now => .date now

/-- Does the schema declare the given path? -/
def schemaHasPath (schema : MongooseSchema) (k : String) : Bool :=
  schema.any (fun f => f.path == k)

/-- The default bindings an insert adds: every declared default whose path is
absent from the document, evaluated at instant `now`. -/
def defaultsFor (schema : MongooseSchema) (now : Nat) (doc : Doc) : Doc :=
  schema.filterMap (fun f =>
    match f.dflt with
    | some d => if getField doc f.path = none then some (f.path, defaultValue d now) else none
    | none => none)

/-- Mongoose default application on insert: every declared default whose path
is absent from the document is added with its value at instant `now`.
Fields already present are never overwritten. -/
def applyDefaults (schema : MongooseSchema) (now : Nat) (doc : Doc) : Doc :=
  doc ++ defaultsFor schema now doc

/-- Mongoose required check for one declared path.  For String paths mongoose
checkRequired demands a string value of positive length, so the empty string
fails; for other types any present value passes. -/
def fieldSatisfiesRequired (doc : Doc) (f : SchemaField) : Bool :=
  match f.type, getField doc f.path with
  | .string, some (.str s) => s.length > 0
  | .string, some _ => false
  | _, some _ => true
  | _, none => false

/-- Mongoose required validation over a whole schema. -/
def requiredOk (schema : MongooseSchema) (doc : Doc) : Bool :=
  schema.all (fun f => !f.required || fieldSatisfiesRequired doc f)

/-- Mongoose Model.create under a schema: strict mode strips paths the schema
does not declare, defaults are applied for absent paths, required paths are
validated (rejecting with a ValidationError on failure), and the stored
document receives its assigned primary key `newId`. -/
def mongooseCreate (schema : MongooseSchema) (now : Nat) (newId : String)
    (body : Doc) : Except String Doc :=
  if requiredOk schema (applyDefaults schema now (body.filter (fun kv => schemaHasPath schema kv.1))) then
    .ok (("_id", .oid newId) :: applyDefaults schema now (body.filter (fun kv => schemaHasPath schema kv.1)))
  else
    .error "ValidationError"

/-- Outcome object of a MongoDB delete operation. -/
structure DeleteResult where
  deletedCount : Nat
deriving DecidableEq, Repr

/-- Outcome object of a MongoDB update operation. -/
structure UpdateResult where
  matchedCount : Nat
  modifiedCount : Nat
deriving DecidableEq, Repr

/-- deleteOne with filter {_id: id}: removes the first matching document and
reports how many documents were deleted (0 or 1). -/
def deleteOne : List Doc → String → List Doc × DeleteResult
  | [], _ => ([], ⟨0⟩)
  | d :: ds, id =>
    if getField d "_id" = some (.oid id) then (ds, ⟨1⟩)
    else
      let r := deleteOne ds id
      (d :: r.1, r.2)

/-- Apply a $set stage: each binding of the partial document overwrites the
corresponding field; all other fields are untouched. -/
def applySet (doc : Doc) (upd : Doc) : Doc :=
  upd.foldl (fun d kv => setField d kv.1 kv.2) doc

/-- updateOne with filter {_id: id} and a single $set stage: rewrites the
first matching document and reports matched/modified counts. -/
def updateOne : List Doc → String → Doc → List Doc × UpdateResult
  | [], _, _ => ([], ⟨0, 0⟩)
  | d :: ds, id, upd =>
    if getField d "_id" = some (.oid id) then
      let d2 := applySet d upd
      (d2 :: ds, ⟨1, if d2 = d then 0 else 1⟩)
    else
      let r := updateOne ds id upd
      (d :: r.1, r.2)

/-- findOne / findById: the first document satisfying the filter, or null. -/
def findFirst (coll : List Doc) (p : Doc → Bool) : Option Doc :=
  coll.find? p

/-! ## Express routing model

A route pattern is a list of path segments, each a literal or a `:name`
parameter.  Matching a request path against a pattern binds each parameter
segment's name to the corresponding path segment; `req.params` holds exactly
those bindings, so reading any other property of `req.params` yields
`undefined`, modelled as `none`. -/

/-- One segment of an Express route pattern. -/
inductive Seg where
  | lit : String → Seg
  | param : String → Seg
deriving DecidableEq, Repr

/-- Match a request path against a route pattern, producing the path-parameter
bindings when the shapes agree. -/
def matchRoute : List Seg → List String → Option (List (String × String))
  | [], [] => some []
  | .lit s :: ps, x :: xs => if s = x then matchRoute ps xs else none
  | .param n :: ps, x :: xs => (matchRoute ps xs).map (fun rest => (n, x) :: rest)
  | _, _ => none

/-- Property access on `req.params`: the first binding, `undefined` (none)
when the route bound no parameter of that name. -/
def lookupParam (params : List (String × String)) (k : String) : Option String :=
  (params.find? (fun kv => kv.1 == k)).map (fun kv => kv.2)

/-- An incoming HTTP request as the handlers see it: the path-parameter
bindings produced by the matched route, and the parsed JSON body. -/
structure Request where
  params : List (String × String)
  body : Doc
deriving Repr

/-- The JSON body written back to the client. -/
inductive Json where
  | null : Json
  | doc : Doc → Json
  | arr : List Doc → Json
deriving DecidableEq, Repr

/-- The HTTP response a handler produces.  None of the handlers ever sets a
status, so the status is Express's default 200 in every response built by
`jsonResponse`. -/
structure Response where
  status : Nat
  body : Json
deriving DecidableEq, Repr

/-- res.json(v) with no prior status call: status 200, JSON body. -/
def jsonResponse (j : Json) : Response := ⟨200, j⟩

/-! ## Route patterns registered by TuitController.getInstance
(src/unnamed/part_000, lines 37-42). -/

/-- app.get(`/tuits`, ... findAllTuits) -/
def routeFindAllTuits : List Seg := [.lit "tuits"]

/-- app.get(`/users/:uid/tuits`, ... findTuitsByUser) -/
def routeFindTuitsByUser : List Seg := [.lit "users", .param "uid", .lit "tuits"]

/-- app.get(`/tuits/:tid`, ... findTuitById) -/
def routeFindTuitById : List Seg := [.lit "tuits", .param "tid"]

/-- app.post(`/users/:uid/tuits`, ... createTuit) -/
def routeCreateTuit : List Seg := [.lit "users", .param "uid", .lit "tuits"]

/-- app.delete(`/tuits/:tid`, ... deleteTuit) -/
def routeDeleteTuit : List Seg := [.lit "tuits", .param "tid"]

/-- app.put(`/tuits/:tid`, ... updateTuit) -/
def routeUpdateTuit : List Seg := [.lit "tuits", .param "tid"]

/-! ## TuitDao

The TuitDao class itself is not among the provided sources; only its callers
(TuitController) and the schemas are.  The DAO methods the claims need are
therefore modelled from the spec. -/

namespace TuitDao

/-- Modelled from the spec: `TuitDao.createTuit` is not under src/.
Spec 4.1: "inserts a new document with `postedBy` forced to the path
parameter, returns the created document including its assigned primary key".
The insert is governed by the tuits schema that matches the spec's data model
(the declaration in src/unnamed/part_001, with media fields and stats). -/
def createTuit (uid : String) (body : Doc) (now : Nat) (newId : String) :
    Except String Doc :=
  mongooseCreate TuitSchemaFull now newId (setField body "postedBy" (.oid uid))

/-- Modelled from the spec: `TuitDao.findTuitById` is not under src/.
Spec 4.1: "path parameter is the Tuit primary key; returns the matching
document ... or a null/empty JSON body if absent". -/
def findTuitById (coll : List Doc) (tid : String) : Option Doc :=
  findFirst coll (fun d => getField d "_id" == some (.oid tid))

end TuitDao

/-! ## TuitController handlers (src/unnamed/part_000) -/

/-- The call a delete/update handler issues on the tuit DAO, recording
exactly the identifier (and body) the handler forwards. -/
inductive TuitDaoCall where
  | deleteTuit : Option String → TuitDaoCall
  | updateTuit : Option String → Doc → TuitDaoCall
deriving DecidableEq, Repr

namespace TuitController

/-- deleteTuit handler (part_000 lines 101-103): forwards
`req.params.tuitId` to `tuitDao.deleteTuit`. -/
def deleteTuitCall (req : Request) : TuitDaoCall :=
  .deleteTuit (lookupParam req.params "tuitId")

/-- updateTuit handler (part_000 lines 112-114): forwards
`req.params.tuitId` and `req.body` to `tuitDao.updateTuit`. -/
def updateTuitCall (req : Request) : TuitDaoCall :=
  .updateTuit (lookupParam req.params "tuitId") req.body

/-- findTuitById handler (part_000 lines 66-68): looks up `req.params.tid`,
queries the DAO and serializes the result with res.json — the document when
one matches, JSON null otherwise.  On the registered route the `tid`
parameter is always bound; an unbound parameter is returned as a null
response (that branch is unreachable through the route). -/
def findTuitById (coll : List Doc) (req : Request) : Response :=
  match lookupParam req.params "tid" with
  | some tid =>
    match TuitDao.findTuitById coll tid with
    | some d => jsonResponse (.doc d)
    | none => jsonResponse .null
  | none => jsonResponse .null

/-- createTuit handler (part_000 lines 90-92): forwards `req.params.uid` and
`req.body` to `tuitDao.createTuit` and serializes the created document with
res.json.  `none` marks the route-unreachable case of an unbound `uid`. -/
def createTuit (now : Nat) (newId : String) (req : Request) :
    Option (Except String Response) :=
  (lookupParam req.params "uid").map (fun uid =>
    (TuitDao.createTuit uid req.body now newId).map (fun d => jsonResponse (.doc d)))

end TuitController

/-! ## UserDao (src/daos/UserDao.ts)

User documents live in the users collection, modelled as a list of
documents.  Each DAO method is the single driver call the source makes.
Methods that always resolve are wrapped in `Except` to state that they
resolve rather than reject. -/

namespace UserDao

/-- findUserById (UserDao.ts lines 44-46): `UserModel.findById(userId)` —
resolves with the matching document, or null when none matches. -/
def findUserById (coll : List Doc) (userId : String) :
    Except String (Option Doc) :=
  .ok (findFirst coll (fun d => getField d "_id" == some (.oid userId)))

/-- deleteUser (UserDao.ts lines 62-64): `UserModel.deleteOne({_id: userId})`
— resolves with the raw deletion outcome. -/
def deleteUser (coll : List Doc) (userId : String) :
    Except String (List Doc × DeleteResult) :=
  .ok (deleteOne coll userId)

/-- updateUser (UserDao.ts lines 72-74):
`UserModel.updateOne({_id: userId}, {$set: user})`. -/
def updateUser (coll : List Doc) (userId : String) (user : Doc) :
    List Doc × UpdateResult :=
  updateOne coll userId user

/-- findUserByCredentials (UserDao.ts lines 82-83):
`UserModel.findOne({username: username, password: password})` — plain
equality on both fields. -/
def findUserByCredentials (coll : List Doc) (username password : String) :
    Option Doc :=
  findFirst coll (fun d =>
    getField d "username" == some (.str username) &&
    getField d "password" == some (.str password))

end UserDao

/-! ## Helper lemmas about documents -/

theorem getField_cons_self (l : Doc) (k : String) (v : Value) :
    getField ((k, v) :: l) k = some v := by
  simp [getField, List.find?]

theorem getField_cons_ne (l : Doc) (a k : String) (v : Value) (h : a ≠ k) :
    getField ((a, v) :: l) k = getField l k := by
  have hb : (a == k) = false := beq_eq_false_iff_ne.mpr h
  simp [getField, List.find?, hb]

theorem getField_filter_keep (l : Doc) (k : String) (p : String × Value → Bool)
    (hp : ∀ v, p (k, v) = true) :
    getField (l.filter p) k = getField l k := by
  induction l with
  | nil => rfl
  | cons kv rest ih =>
    obtain ⟨a, b⟩ := kv
    rw [List.filter_cons]
    by_cases hak : a = k
    · subst hak
      rw [if_pos (hp b), getField_cons_self, getField_cons_self]
    · by_cases hpb : p (a, b) = true
      · rw [if_pos hpb, getField_cons_ne _ _ _ _ hak, getField_cons_ne _ _ _ _ hak, ih]
      · rw [if_neg hpb, getField_cons_ne _ _ _ _ hak, ih]

theorem getField_filter_of_none (l : Doc) (k : String) (p : String × Value → Bool)
    (h : getField l k = none) :
    getField (l.filter p) k = none := by
  induction l with
  | nil => rfl
  | cons kv rest ih =>
    obtain ⟨a, b⟩ := kv
    have hak : a ≠ k := by
      intro hk
      subst hk
      rw [getField_cons_self] at h
      exact Option.noConfusion h
    rw [getField_cons_ne _ _ _ _ hak] at h
    rw [List.filter_cons]
    by_cases hpb : p (a, b) = true
    · rw [if_pos hpb, getField_cons_ne _ _ _ _ hak]
      exact ih h
    · rw [if_neg hpb]
      exact ih h

theorem getField_filter_absent (l : Doc) (k : String) (p : String × Value → Bool)
    (hp : ∀ v, p (k, v) = false) :
    getField (l.filter p) k = none := by
  induction l with
  | nil => rfl
  | cons kv rest ih =>
    obtain ⟨a, b⟩ := kv
    rw [List.filter_cons]
    by_cases hak : a = k
    · subst hak
      rw [if_neg (by simp [hp b])]
      exact ih
    · by_cases hpb : p (a, b) = true
      · rw [if_pos hpb, getField_cons_ne _ _ _ _ hak]
        exact ih
      · rw [if_neg hpb]
        exact ih

theorem getField_append_left (l1 l2 : Doc) (k : String) (v : Value)
    (h : getField l1 k = some v) :
    getField (l1 ++ l2) k = some v := by
  induction l1 with
  | nil => exact Option.noConfusion h
  | cons kv rest ih =>
    obtain ⟨a, b⟩ := kv
    by_cases hak : a = k
    · subst hak
      rw [getField_cons_self] at h
      rw [List.cons_append, getField_cons_self]
      exact h
    · rw [getField_cons_ne _ _ _ _ hak] at h
      rw [List.cons_append, getField_cons_ne _ _ _ _ hak]
      exact ih h

theorem getField_append_right (l1 l2 : Doc) (k : String)
    (h : getField l1 k = none) :
    getField (l1 ++ l2) k = getField l2 k := by
  induction l1 with
  | nil => rfl
  | cons kv rest ih =>
    obtain ⟨a, b⟩ := kv
    have hak : a ≠ k := by
      intro hk
      subst hk
      rw [getField_cons_self] at h
      exact Option.noConfusion h
    rw [getField_cons_ne _ _ _ _ hak] at h
    rw [List.cons_append, getField_cons_ne _ _ _ _ hak]
    exact ih h

theorem getField_setField_self (d : Doc) (k : String) (v : Value) :
    getField (setField d k v) k = some v := by
  rw [setField, getField_cons_self]

theorem getField_setField_ne (d : Doc) (a k : String) (v : Value) (h : k ≠ a) :
    getField (setField d a v) k = getField d k := by
  rw [setField, getField_cons_ne _ _ _ _ (fun hh => h hh.symm)]
  exact getField_filter_keep d k _ (fun w => by simp [h])

theorem getField_defaultsFor (schema : MongooseSchema) (now : Nat) (doc : Doc)
    (k : String) (fld : SchemaField) (d : FieldDefault)
    (habs : getField doc k = none)
    (hfind : schema.find? (fun f => f.path == k) = some fld)
    (hd : fld.dflt = some d) :
    getField (defaultsFor schema now doc) k = some (defaultValue d now) := by
  induction schema with
  | nil => exact Option.noConfusion hfind
  | cons f fs ih =>
    rw [defaultsFor, List.filterMap_cons]
    by_cases hfk : f.path = k
    · have hffld : f = fld := by
        rw [List.find?_cons] at hfind
        have hbeq : (f.path == k) = true := by simp [hfk]
        rw [hbeq] at hfind
        injection hfind
      subst hffld
      rw [hd, hfk, habs]
      simp only [if_pos rfl]
      exact getField_cons_self _ _ _
    · have hfind2 : fs.find? (fun f => f.path == k) = some fld := by
        rw [List.find?_cons] at hfind
        have hbeq : (f.path == k) = false := by simp [hfk]
        rw [hbeq] at hfind
        exact hfind
      cases hdf : f.dflt with
      | none => exact ih hfind2
      | some d2 =>
        by_cases habs2 : getField doc f.path = none
        · simp only [if_pos habs2]
          rw [getField_cons_ne _ _ _ _ hfk]
          exact ih hfind2
        · simp only [if_neg habs2]
          exact ih hfind2

theorem getField_defaultsFor_none (schema : MongooseSchema) (now : Nat) (doc : Doc)
    (k : String)
    (h : ∀ f ∈ schema, f.path ≠ k ∨ f.dflt = none) :
    getField (defaultsFor schema now doc) k = none := by
  induction schema with
  | nil => rfl
  | cons f fs ih =>
    rw [defaultsFor, List.filterMap_cons]
    have ihr := ih (fun g hg => h g (List.mem_cons_of_mem f hg))
    cases hdf : f.dflt with
    | none => exact ihr
    | some d2 =>
      have hfk : f.path ≠ k := by
        rcases h f (List.mem_cons_self f fs) with hne | hnone
        · exact hne
        · rw [hdf] at hnone
          exact Option.noConfusion hnone
      by_cases habs2 : getField doc f.path = none
      · simp only [if_pos habs2]
        rw [getField_cons_ne _ _ _ _ hfk]
        exact ihr
      · simp only [if_neg habs2]
        exact ihr

theorem mongooseCreate_ok_shape (schema : MongooseSchema) (now : Nat)
    (newId : String) (body : Doc) (doc : Doc)
    (h : mongooseCreate schema now newId body = .ok doc) :
    doc = ("_id", .oid newId) ::
      applyDefaults schema now (body.filter (fun kv => schemaHasPath schema kv.1)) := by
  rw [mongooseCreate] at h
  by_cases hr : requiredOk schema
      (applyDefaults schema now (body.filter (fun kv => schemaHasPath schema kv.1))) = true
  · rw [if_pos hr] at h
    injection h with h2
    exact h2.symm
  · rw [if_neg hr] at h
    exact Except.noConfusion h

theorem matchRoute_tuits_tid (segs : List String) (ps : List (String × String))
    (h : matchRoute [Seg.lit "tuits", Seg.param "tid"] segs = some ps) :
    ∃ x, ps = [("tid", x)] := by
  match segs with
  | [] => simp [matchRoute] at h
  | [a] =>
    simp only [matchRoute] at h
    split at h
    · simp [matchRoute] at h
    · exact Option.noConfusion h
  | a :: b :: rest =>
    simp only [matchRoute] at h
    split at h
    · match rest with
      | [] =>
        simp only [matchRoute, Option.map_some] at h
        injection h with h2
        exact ⟨b, h2.symm⟩
      | c :: rest2 =>
        simp [matchRoute] at h
    · exact Option.noConfusion h

theorem matchRoute_users_uid_tuits (segs : List String)
    (ps : List (String × String))
    (h : matchRoute [Seg.lit "users", Seg.param "uid", Seg.lit "tuits"] segs = some ps) :
    ∃ x, ps = [("uid", x)] := by
  match segs with
  | [] => simp [matchRoute] at h
  | [a] =>
    simp only [matchRoute] at h
    split at h
    · simp [matchRoute] at h
    · exact Option.noConfusion h
  | [a, b] =>
    simp only [matchRoute] at h
    split at h
    · simp [matchRoute] at h
    · exact Option.noConfusion h
  | a :: b :: c :: rest =>
    simp only [matchRoute] at h
    split at h
    · match rest with
      | [] =>
        simp only [matchRoute] at h
        split at h
        · injection h with h2
          exact ⟨b, h2.symm⟩
        · exact Option.noConfusion h
      | e :: rest2 =>
        simp only [matchRoute] at h
        split at h
        · exact Option.noConfusion h
        · exact Option.noConfusion h
    · exact Option.noConfusion h

theorem getField_applySet_of_not_mem (upd : Doc) :
    ∀ (d : Doc) (k : String), k ∉ upd.map Prod.fst →
    getField (applySet d upd) k = getField d k := by
  induction upd with
  | nil =>
    intro d k _
    rfl
  | cons kv rest ih =>
    intro d k h
    rw [List.map_cons, List.mem_cons] at h
    push_neg at h
    obtain ⟨h1, h2⟩ := h
    have hstep : applySet d (kv :: rest) = applySet (setField d kv.1 kv.2) rest := rfl
    rw [hstep, ih _ k h2, getField_setField_ne _ _ _ _ h1]

theorem deleteOne_no_match (coll : List Doc) (uid : String) :
    (∀ d ∈ coll, getField d "_id" ≠ some (.oid uid)) →
    deleteOne coll uid = (coll, ⟨0⟩) := by
  induction coll with
  | nil =>
    intro _
    rfl
  | cons d ds ih =>
    intro h
    rw [deleteOne, if_neg (h d (List.mem_cons_self d ds)),
      ih (fun d2 hd2 => h d2 (List.mem_cons_of_mem d hd2))]

theorem getField_mongoose_default (schema : MongooseSchema) (now : Nat)
    (newId : String) (body : Doc) (p : String) (fld : SchemaField)
    (d : FieldDefault)
    (habs : getField body p = none)
    (hfind : schema.find? (fun f => f.path == p) = some fld)
    (hd : fld.dflt = some d)
    (hid : "_id" ≠ p) :
    getField (("_id", Value.oid newId) ::
        applyDefaults schema now (body.filter (fun kv => schemaHasPath schema kv.1))) p =
      some (defaultValue d now) := by
  rw [getField_cons_ne _ _ _ _ hid, applyDefaults]
  have h1 : getField (body.filter (fun kv => schemaHasPath schema kv.1)) p = none :=
    getField_filter_of_none _ _ _ habs
  rw [getField_append_right _ _ _ h1]
  exact getField_defaultsFor _ _ _ _ _ _ h1 hfind hd

theorem mongooseCreate_tuit_required (schema : MongooseSchema) (now : Nat)
    (newId : String) (body : Doc) (rest : MongooseSchema)
    (hsch : schema = ⟨"tuit", FieldType.string, true, none⟩ :: rest)
    (hmem : schemaHasPath schema "tuit" = true)
    (hnodef : ∀ f ∈ schema, f.path ≠ "tuit" ∨ f.dflt = none)
    (h : getField body "tuit" = none ∨ getField body "tuit" = some (.str "")) :
    mongooseCreate schema now newId body = .error "ValidationError" := by
  have hstr : getField (body.filter (fun kv => schemaHasPath schema kv.1)) "tuit" =
      getField body "tuit" :=
    getField_filter_keep _ _ _ (fun w => hmem)
  have hdef : getField (defaultsFor schema now
      (body.filter (fun kv => schemaHasPath schema kv.1))) "tuit" = none :=
    getField_defaultsFor_none _ _ _ _ hnodef
  have hwd : getField (applyDefaults schema now
      (body.filter (fun kv => schemaHasPath schema kv.1))) "tuit" = getField body "tuit" := by
    rw [applyDefaults]
    cases hb : getField body "tuit" with
    | none =>
      rw [getField_append_right _ _ _ (by rw [hstr, hb]), hdef]
    | some v =>
      exact getField_append_left _ _ _ _ (by rw [hstr, hb])
  have hfs : fieldSatisfiesRequired (applyDefaults schema now
      (body.filter (fun kv => schemaHasPath schema kv.1)))
      ⟨"tuit", FieldType.string, true, none⟩ = false := by
    rcases h with hb | hb
    · simp [fieldSatisfiesRequired, hwd, hb]
    · simp [fieldSatisfiesRequired, hwd, hb]
  have hreq : requiredOk schema (applyDefaults schema now
      (body.filter (fun kv => schemaHasPath schema kv.1))) = false := by
    rw [hsch] at hfs ⊢
    rw [requiredOk, List.all_cons]
    simp [hfs]
  rw [mongooseCreate, if_neg (by simp [hreq])]

theorem TuitDao_createTuit_postedBy (uid : String) (body : Doc) (now : Nat)
    (newId : String) (doc : Doc)
    (h : TuitDao.createTuit uid body now newId = .ok doc) :
    getField doc "postedBy" = some (.oid uid) := by
  rw [TuitDao.createTuit] at h
  have hdoc := mongooseCreate_ok_shape _ _ _ _ _ h
  subst hdoc
  rw [getField_cons_ne _ _ _ _ (by decide), applyDefaults]
  have hstr : getField ((setField body "postedBy" (Value.oid uid)).filter
      (fun kv => schemaHasPath TuitSchemaFull kv.1)) "postedBy" = some (.oid uid) := by
    rw [getField_filter_keep _ _ _
      (fun w => (by decide : schemaHasPath TuitSchemaFull "postedBy" = true))]
    exact getField_setField_self body "postedBy" (Value.oid uid)
  exact getField_append_left _ _ _ _ hstr

/-! ## Claim theorems -/

/-- C1: every request matched by the registered DELETE/PUT /tuits/:tid route
binds only the path parameter `tid`, while the deleteTuit and updateTuit
handlers forward `req.params.tuitId` to the DAO — so the identifier each
handler forwards is undefined (none) for every such request. -/
theorem C1_delete_update_forward_undefined (segs : List String)
    (ps : List (String × String)) (body : Doc)
    (hdel : matchRoute routeDeleteTuit segs = some ps)
    (_hupd : matchRoute routeUpdateTuit segs = some ps) :
    TuitController.deleteTuitCall ⟨ps, body⟩ = .deleteTuit none ∧
    TuitController.updateTuitCall ⟨ps, body⟩ = .updateTuit none body := by
  obtain ⟨x, hps⟩ := matchRoute_tuits_tid segs ps hdel
  subst hps
  have hnone : lookupParam [("tid", x)] "tuitId" = none := by
    simp [lookupParam, List.find?]
  constructor
  · rw [TuitController.deleteTuitCall]
    rw [show (⟨[("tid", x)], body⟩ : Request).params = [("tid", x)] from rfl, hnone]
  · rw [TuitController.updateTuitCall]
    rw [show (⟨[("tid", x)], body⟩ : Request).params = [("tid", x)] from rfl, hnone]

/-- Witness for C1 at the concrete request DELETE/PUT /tuits/t1. -/
theorem C1_delete_update_forward_undefined_witness :
    TuitController.deleteTuitCall ⟨[("tid", "t1")], []⟩ = .deleteTuit none ∧
    TuitController.updateTuitCall ⟨[("tid", "t1")], []⟩ = .updateTuit none [] :=
  C1_delete_update_forward_undefined ["tuits", "t1"] [("tid", "t1")] [] rfl rfl

/-- C6: updateUser performs a field-level $set — for any field absent from
the supplied partial object, every stored document's value of that field is
unchanged by the update. -/
theorem C6_updateUser_frame (coll : List Doc) (userId : String) (user : Doc)
    (k : String) (h : k ∉ user.map Prod.fst) :
    (UserDao.updateUser coll userId user).1.map (fun d => getField d k) =
      coll.map (fun d => getField d k) := by
  rw [UserDao.updateUser]
  induction coll with
  | nil => rfl
  | cons d ds ih =>
    simp only [updateOne]
    by_cases hid : getField d "_id" = some (.oid userId)
    · rw [if_pos hid]
      simp only [List.map_cons]
      rw [getField_applySet_of_not_mem user d k h]
    · rw [if_neg hid]
      simp only [List.map_cons]
      rw [ih]

/-- Witness for C6: updating one field leaves another field's column of
values unchanged. -/
theorem C6_updateUser_frame_witness :
    (UserDao.updateUser
        [[("_id", Value.oid "u1"), ("username", Value.str "alice"),
          ("password", Value.str "pw")]]
        "u1" [("password", Value.str "pw2")]).1.map (fun d => getField d "username") =
      ([[("_id", Value.oid "u1"), ("username", Value.str "alice"),
          ("password", Value.str "pw")]] : List Doc).map (fun d => getField d "username") :=
  C6_updateUser_frame _ "u1" [("password", Value.str "pw2")] "username" (by decide)

/-- C7: deleting by a primary key that matches no stored document resolves
successfully with deletedCount 0 and leaves the stored collection
unchanged. -/
theorem C7_deleteUser_nonexistent (coll : List Doc) (userId : String)
    (h : ∀ d ∈ coll, getField d "_id" ≠ some (.oid userId)) :
    UserDao.deleteUser coll userId = .ok (coll, ⟨0⟩) := by
  rw [UserDao.deleteUser, deleteOne_no_match coll userId h]

/-- Witness for C7 at a concrete collection and a missing key. -/
theorem C7_deleteUser_nonexistent_witness :
    UserDao.deleteUser [[("_id", Value.oid "u1"), ("username", Value.str "alice")]] "u2" =
      .ok ([[("_id", Value.oid "u1"), ("username", Value.str "alice")]], ⟨0⟩) :=
  C7_deleteUser_nonexistent _ "u2" (by decide)

/-- C9: findUserByCredentials resolves with a stored document whose username
and password both equal the given credentials (plain equality), and with
null exactly when no stored user matches both. -/
theorem C9_findUserByCredentials_spec (coll : List Doc)
    (username password : String) :
    (∀ d, UserDao.findUserByCredentials coll username password = some d →
      d ∈ coll ∧ getField d "username" = some (.str username) ∧
        getField d "password" = some (.str password)) ∧
    (UserDao.findUserByCredentials coll username password = none →
      ∀ d ∈ coll, ¬(getField d "username" = some (.str username) ∧
        getField d "password" = some (.str password))) := by
  constructor
  · intro d hd
    rw [UserDao.findUserByCredentials, findFirst] at hd
    have hmem := List.mem_of_find?_eq_some hd
    have hp := List.find?_some hd
    simp only [Bool.and_eq_true, beq_iff_eq] at hp
    exact ⟨hmem, hp.1, hp.2⟩
  · intro hn d hdmem hcontra
    rw [UserDao.findUserByCredentials, findFirst, List.find?_eq_none] at hn
    have hnd := hn d hdmem
    simp only [Bool.and_eq_true, beq_iff_eq] at hnd
    exact hnd ⟨hcontra.1, hcontra.2⟩

/-- Witness for C9 at a concrete one-user collection and matching
credentials. -/
theorem C9_findUserByCredentials_spec_witness :
    ([("_id", Value.oid "u1"), ("username", Value.str "alice"),
        ("password", Value.str "pw")] : Doc) ∈
      ([[("_id", Value.oid "u1"), ("username", Value.str "alice"),
        ("password", Value.str "pw")]] : List Doc) ∧
    getField [("_id", Value.oid "u1"), ("username", Value.str "alice"),
        ("password", Value.str "pw")] "username" = some (.str "alice") ∧
    getField [("_id", Value.oid "u1"), ("username", Value.str "alice"),
        ("password", Value.str "pw")] "password" = some (.str "pw") :=
  (C9_findUserByCredentials_spec
      [[("_id", Value.oid "u1"), ("username", Value.str "alice"),
        ("password", Value.str "pw")]] "alice" "pw").1 _ (by decide)

/-- C10: findUserById resolves (with .ok) to null, rather than rejecting,
whenever no stored user has the given primary key. -/
theorem C10_findUserById_missing (coll : List Doc) (userId : String)
    (h : ∀ d ∈ coll, getField d "_id" ≠ some (.oid userId)) :
    UserDao.findUserById coll userId = .ok none := by
  rw [UserDao.findUserById, findFirst]
  have hfind : coll.find? (fun d => getField d "_id" == some (.oid userId)) = none := by
    rw [List.find?_eq_none]
    intro d hd
    simp only [beq_iff_eq]
    exact h d hd
  rw [hfind]

/-- Witness for C10 at a concrete collection and a missing key. -/
theorem C10_findUserById_missing_witness :
    UserDao.findUserById [[("_id", Value.oid "u1")]] "u2" = .ok none :=
  C10_findUserById_missing _ "u2" (by decide)

/-- C2: for every POST /users/:uid/tuits request, a successfully created
tuit document returned to the client has postedBy equal to the uid path
parameter, whatever postedBy the body carried. -/
theorem C2_createTuit_postedBy_wins (segs : List String)
    (ps : List (String × String)) (body : Doc) (now : Nat) (newId : String)
    (uid : String) (resp : Response)
    (_hroute : matchRoute routeCreateTuit segs = some ps)
    (huid : lookupParam ps "uid" = some uid)
    (hcreate : TuitController.createTuit now newId ⟨ps, body⟩ = some (.ok resp)) :
    resp.status = 200 ∧ ∃ d, resp.body = .doc d ∧
      getField d "postedBy" = some (.oid uid) := by
  rw [TuitController.createTuit] at hcreate
  rw [show (⟨ps, body⟩ : Request).params = ps from rfl] at hcreate
  rw [show (⟨ps, body⟩ : Request).body = body from rfl] at hcreate
  rw [huid] at hcreate
  injection hcreate with h2
  replace h2 : Except.map (fun d => jsonResponse (Json.doc d))
      (TuitDao.createTuit uid body now newId) = Except.ok resp := h2
  cases hc : TuitDao.createTuit uid body now newId with
  | error e =>
    rw [hc] at h2
    exact Except.noConfusion h2
  | ok d =>
    rw [hc] at h2
    injection h2 with h3
    refine ⟨by rw [← h3]; rfl, d, by rw [← h3]; rfl, ?_⟩
    exact TuitDao_createTuit_postedBy uid body now newId d hc

/-- Witness for C2: a concrete POST /users/u1/tuits whose body claims
postedBy u999 still yields a document with postedBy u1. -/
theorem C2_createTuit_postedBy_wins_witness :
    (⟨200, Json.doc [("_id", Value.oid "t1"), ("postedBy", Value.oid "u1"),
        ("tuit", Value.str "hello"), ("postedOn", Value.date 5),
        ("stats.replies", Value.num 0), ("stats.retuits", Value.num 0),
        ("stats.likes", Value.num 0), ("stats.dislikes", Value.num 0),
        ("stats.currentUserLike", Value.num 0),
        ("stats.currentUserDislike", Value.num 0)]⟩ : Response).status = 200 ∧
    ∃ d, (⟨200, Json.doc [("_id", Value.oid "t1"), ("postedBy", Value.oid "u1"),
        ("tuit", Value.str "hello"), ("postedOn", Value.date 5),
        ("stats.replies", Value.num 0), ("stats.retuits", Value.num 0),
        ("stats.likes", Value.num 0), ("stats.dislikes", Value.num 0),
        ("stats.currentUserLike", Value.num 0),
        ("stats.currentUserDislike", Value.num 0)]⟩ : Response).body = .doc d ∧
      getField d "postedBy" = some (.oid "u1") :=
  C2_createTuit_postedBy_wins ["users", "u1", "tuits"] [("uid", "u1")]
    [("tuit", Value.str "hello"), ("postedBy", Value.oid "u999")] 5 "t1" "u1"
    ⟨200, Json.doc [("_id", Value.oid "t1"), ("postedBy", Value.oid "u1"),
        ("tuit", Value.str "hello"), ("postedOn", Value.date 5),
        ("stats.replies", Value.num 0), ("stats.retuits", Value.num 0),
        ("stats.likes", Value.num 0), ("stats.dislikes", Value.num 0),
        ("stats.currentUserLike", Value.num 0),
        ("stats.currentUserDislike", Value.num 0)]⟩ rfl rfl rfl

/-- C3: a tuit created (under the schema with the stats block) from a body
with no stats fields gets all six counters 0, and when postedOn is omitted
it defaults to the creation instant. -/
theorem C3_create_stats_and_postedOn_defaults (uid : String) (body : Doc)
    (now : Nat) (newId : String) (doc : Doc)
    (hstats : ∀ p ∈ statsPaths, getField body p = none)
    (hposted : getField body "postedOn" = none)
    (hok : TuitDao.createTuit uid body now newId = .ok doc) :
    (∀ p ∈ statsPaths, getField doc p = some (.num 0)) ∧
    getField doc "postedOn" = some (.date now) := by
  rw [TuitDao.createTuit] at hok
  have hdoc := mongooseCreate_ok_shape _ _ _ _ _ hok
  subst hdoc
  have hbundle : ∀ q ∈ statsPaths, q ≠ "postedBy" ∧ "_id" ≠ q ∧
      TuitSchemaFull.find? (fun f => f.path == q) =
        some ⟨q, FieldType.number, false, some (.constNum 0)⟩ := by decide
  constructor
  · intro p hp
    obtain ⟨hne, hid, hfind⟩ := hbundle p hp
    have habs : getField (setField body "postedBy" (Value.oid uid)) p = none := by
      rw [getField_setField_ne _ _ _ _ hne]
      exact hstats p hp
    exact getField_mongoose_default TuitSchemaFull now newId _ p _ _ habs hfind rfl hid
  · have habs : getField (setField body "postedBy" (Value.oid uid)) "postedOn" = none := by
      rw [getField_setField_ne _ _ _ _ (by decide)]
      exact hposted
    exact getField_mongoose_default TuitSchemaFull now newId _ "postedOn"
      ⟨"postedOn", FieldType.date, false, some .dateNow⟩ FieldDefault.dateNow habs
      (by decide) rfl (by decide)

/-- Witness for C3 at a concrete create of {tuit: "hi"} at instant 7. -/
theorem C3_create_stats_and_postedOn_defaults_witness :
    (∀ p ∈ statsPaths,
      getField [("_id", Value.oid "t1"), ("postedBy", Value.oid "u1"),
        ("tuit", Value.str "hi"), ("postedOn", Value.date 7),
        ("stats.replies", Value.num 0), ("stats.retuits", Value.num 0),
        ("stats.likes", Value.num 0), ("stats.dislikes", Value.num 0),
        ("stats.currentUserLike", Value.num 0),
        ("stats.currentUserDislike", Value.num 0)] p = some (.num 0)) ∧
    getField [("_id", Value.oid "t1"), ("postedBy", Value.oid "u1"),
        ("tuit", Value.str "hi"), ("postedOn", Value.date 7),
        ("stats.replies", Value.num 0), ("stats.retuits", Value.num 0),
        ("stats.likes", Value.num 0), ("stats.dislikes", Value.num 0),
        ("stats.currentUserLike", Value.num 0),
        ("stats.currentUserDislike", Value.num 0)] "postedOn" = some (.date 7) :=
  C3_create_stats_and_postedOn_defaults "u1" [("tuit", Value.str "hi")] 7 "t1" _
    (by decide) rfl rfl

/-- C4: the two declared tuits schemas define different document shapes: the
src/mongoose/TuitSchema.ts declaration has only tuit, postedBy and postedOn
(its only default is postedOn), so documents it inserts carry no stats
counters, while the src/unnamed/part_001 declaration additionally defines
the four media fields and six stats counters that default to 0 on insert. -/
theorem C4_two_tuits_schemas_differ :
    TuitSchemaMin.map SchemaField.path = ["tuit", "postedBy", "postedOn"] ∧
    TuitSchemaMin.filterMap (fun f => f.dflt.map (fun _ => f.path)) = ["postedOn"] ∧
    (∀ body now newId doc, mongooseCreate TuitSchemaMin now newId body = .ok doc →
      ∀ p ∈ statsPaths, getField doc p = none) ∧
    TuitSchemaFull.map SchemaField.path =
      ["tuit", "postedBy", "postedOn", "image", "youtube", "avatarLogo",
        "imageOverlay"] ++ statsPaths ∧
    (∀ body now newId doc, (∀ p ∈ statsPaths, getField body p = none) →
      mongooseCreate TuitSchemaFull now newId body = .ok doc →
      ∀ p ∈ statsPaths, getField doc p = some (.num 0)) := by
  refine ⟨by decide, by decide, ?_, by decide, ?_⟩
  · intro body now newId doc hok p hp
    have hdoc := mongooseCreate_ok_shape _ _ _ _ _ hok
    subst hdoc
    obtain ⟨hid, hsp, hnd⟩ :=
      (by decide : ∀ q ∈ statsPaths, "_id" ≠ q ∧
        schemaHasPath TuitSchemaMin q = false ∧
        (∀ f ∈ TuitSchemaMin, f.path ≠ q ∨ f.dflt = none)) p hp
    rw [getField_cons_ne _ _ _ _ hid, applyDefaults]
    have hstr : getField (body.filter
        (fun kv => schemaHasPath TuitSchemaMin kv.1)) p = none :=
      getField_filter_absent _ _ _ (fun v => hsp)
    rw [getField_append_right _ _ _ hstr]
    exact getField_defaultsFor_none _ _ _ _ hnd
  · intro body now newId doc habs hok p hp
    have hdoc := mongooseCreate_ok_shape _ _ _ _ _ hok
    subst hdoc
    obtain ⟨hid, hfind⟩ :=
      (by decide : ∀ q ∈ statsPaths, "_id" ≠ q ∧
        TuitSchemaFull.find? (fun f => f.path == q) =
          some ⟨q, FieldType.number, false, some (.constNum 0)⟩) p hp
    exact getField_mongoose_default TuitSchemaFull now newId body p _ _
      (habs p hp) hfind rfl hid

/-- Witness for C4: the same body {tuit: "hi"} inserted under each schema —
no stats counters under the minimal schema, six zeroed counters under the
full one. -/
theorem C4_two_tuits_schemas_differ_witness :
    (∀ p ∈ statsPaths,
      getField [("_id", Value.oid "t1"), ("tuit", Value.str "hi"),
        ("postedOn", Value.date 3)] p = none) ∧
    (∀ p ∈ statsPaths,
      getField [("_id", Value.oid "t2"), ("tuit", Value.str "hi"),
        ("postedOn", Value.date 3),
        ("stats.replies", Value.num 0), ("stats.retuits", Value.num 0),
        ("stats.likes", Value.num 0), ("stats.dislikes", Value.num 0),
        ("stats.currentUserLike", Value.num 0),
        ("stats.currentUserDislike", Value.num 0)] p = some (.num 0)) :=
  ⟨C4_two_tuits_schemas_differ.2.2.1 [("tuit", Value.str "hi")] 3 "t1" _ rfl,
   C4_two_tuits_schemas_differ.2.2.2.2 [("tuit", Value.str "hi")] 3 "t2" _
     (by decide) rfl⟩

/-- C5: creating a tuit whose required text field is empty or absent is
rejected by the persistence call with a validation error (under either
declared schema, and through the DAO create), storing nothing. -/
theorem C5_empty_tuit_text_rejected (uid : String) (body : Doc) (now : Nat)
    (newId : String)
    (h : getField body "tuit" = none ∨ getField body "tuit" = some (.str "")) :
    TuitDao.createTuit uid body now newId = .error "ValidationError" ∧
    mongooseCreate TuitSchemaFull now newId body = .error "ValidationError" ∧
    mongooseCreate TuitSchemaMin now newId body = .error "ValidationError" := by
  refine ⟨?_, ?_, ?_⟩
  · rw [TuitDao.createTuit]
    refine mongooseCreate_tuit_required _ _ _ _ _ rfl (by decide) (by decide) ?_
    rw [getField_setField_ne _ _ _ _ (by decide)]
    exact h
  · exact mongooseCreate_tuit_required _ _ _ _ _ rfl (by decide) (by decide) h
  · exact mongooseCreate_tuit_required _ _ _ _ _ rfl (by decide) (by decide) h

/-- Witness for C5 at a concrete body with no tuit text. -/
theorem C5_empty_tuit_text_rejected_witness :
    TuitDao.createTuit "u1" [("postedBy", Value.oid "u2")] 0 "t1" =
      .error "ValidationError" ∧
    mongooseCreate TuitSchemaFull 0 "t1" [("postedBy", Value.oid "u2")] =
      .error "ValidationError" ∧
    mongooseCreate TuitSchemaMin 0 "t1" [("postedBy", Value.oid "u2")] =
      .error "ValidationError" :=
  C5_empty_tuit_text_rejected "u1" [("postedBy", Value.oid "u2")] 0 "t1" (Or.inl rfl)

/-- C8: every GET /tuits/:tid request is answered by findTuitById with
status 200 and the matching document as JSON, or JSON null when no document
matches — never a not-found status. -/
theorem C8_findTuitById_response (coll : List Doc) (segs : List String)
    (ps : List (String × String)) (body : Doc)
    (h : matchRoute routeFindTuitById segs = some ps) :
    ∃ tid, lookupParam ps "tid" = some tid ∧
      TuitController.findTuitById coll ⟨ps, body⟩ =
        { status := 200,
          body := match TuitDao.findTuitById coll tid with
                  | some d => Json.doc d
                  | none => Json.null } := by
  obtain ⟨x, hps⟩ := matchRoute_tuits_tid segs ps h
  subst hps
  have hl : lookupParam [("tid", x)] "tid" = some x := by
    simp [lookupParam, List.find?]
  refine ⟨x, hl, ?_⟩
  rw [TuitController.findTuitById]
  rw [show (⟨[("tid", x)], body⟩ : Request).params = [("tid", x)] from rfl]
  rw [hl]
  show (match TuitDao.findTuitById coll x with
        | some d => jsonResponse (Json.doc d)
        | none => jsonResponse Json.null) =
      ({ status := 200,
         body := match TuitDao.findTuitById coll x with
                 | some d => Json.doc d
                 | none => Json.null } : Response)
  cases TuitDao.findTuitById coll x with
  | some d => rfl
  | none => rfl

/-- Witness for C8 at a concrete GET /tuits/t1 over a one-tuit collection. -/
theorem C8_findTuitById_response_witness :
    ∃ tid, lookupParam [("tid", "t1")] "tid" = some tid ∧
      TuitController.findTuitById [[("_id", Value.oid "t1"), ("tuit", Value.str "hi")]]
          ⟨[("tid", "t1")], []⟩ =
        { status := 200,
          body := match TuitDao.findTuitById
              [[("_id", Value.oid "t1"), ("tuit", Value.str "hi")]] tid with
                  | some d => Json.doc d
                  | none => Json.null } :=
  C8_findTuitById_response [[("_id", Value.oid "t1"), ("tuit", Value.str "hi")]]
    ["tuits", "t1"] [("tid", "t1")] [] rfl
